import Mathlib

/-!
Verification development for the IGUV weekly updater (`updater.py`).

The Python script is shallowly embedded below.  Each Python helper is
translated into an executable Lean definition operating on `String` /
`List Char`, machine integers become `Nat`, fallible code becomes
`Option` (with `none` standing for a raised exception where the Python
code would raise), and the WordPress / OpenAI transport boundaries are
modelled by passing the observed response (status code, body, raw text,
or a transport error) as an explicit argument.
-/

/-! ### Python string primitives -/

/-- Character class of Python's `str.strip()` default and of the regex
class `\s` used in `WS_RX` (modelled for the ASCII whitespace characters
plus NBSP; the script only ever meets these). -/
def isPySpace (c : Char) : Bool :=
  c = ' ' || c = '\t' || c = '\n' || c = '\r' || c = '\x0b' || c = '\x0c' || c = '\xa0'

/-- Python `str.strip()` with no arguments: drop leading and trailing
whitespace. -/
def pyStrip (s : String) : String :=
  String.mk (((s.data.dropWhile isPySpace).reverse.dropWhile isPySpace).reverse)

/-- Python slicing `s[:n]` on a `str`: the first `n` characters. -/
def strTake (s : String) (n : Nat) : String :=
  String.mk (s.data.take n)

/-! ### Calendar dates (`datetime.date`) -/

/-- A `datetime.date` value. -/
structure MyDate where
  year : Nat
  month : Nat
  day : Nat
deriving DecidableEq, Repr

/-- Whether `year` is a leap year, following `calendar.isleap` /
`datetime`'s internal rule. -/
def isLeap (y : Nat) : Bool :=
  y % 4 = 0 && (y % 100 ≠ 0 || y % 400 = 0)

/-- Number of days in a month, as used by the `datetime.date`
constructor's validation. -/
def daysInMonth (y m : Nat) : Nat :=
  if m = 2 then (if isLeap y then 29 else 28)
  else if m = 4 || m = 6 || m = 9 || m = 11 then 30
  else 31

/-- Validity check performed by the `datetime.date(yyyy, mm, dd)`
constructor (`MINYEAR = 1`, `MAXYEAR = 9999`). -/
def validDate (y m d : Nat) : Bool :=
  1 ≤ y && y ≤ 9999 && 1 ≤ m && m ≤ 12 && 1 ≤ d && d ≤ daysInMonth y m

/-- Model of `datetime.date(yyyy, mm, dd)` with the raised `ValueError` modelled
as `none`. -/
def mkDate (y m d : Nat) : Option MyDate :=
  if validDate y m d then some ⟨y, m, d⟩ else none

/-- Python `date` ordering (`d < today`): lexicographic on
(year, month, day). -/
def dateLt (a b : MyDate) : Prop :=
  a.year < b.year ∨ (a.year = b.year ∧
    (a.month < b.month ∨ (a.month = b.month ∧ a.day < b.day)))

/-- Non-strict version of `dateLt`. -/
def dateLe (a b : MyDate) : Prop :=
  a.year < b.year ∨ (a.year = b.year ∧
    (a.month < b.month ∨ (a.month = b.month ∧ a.day ≤ b.day)))

instance : DecidableRel dateLt := fun _ _ => by unfold dateLt; infer_instance

instance : DecidableRel dateLe := fun _ _ => by unfold dateLe; infer_instance

theorem dateLe_of_not_lt {a b : MyDate} (h : ¬ dateLt a b) : dateLe b a := by
  unfold dateLt at h
  unfold dateLe
  omega

/-- Left-pad a number with zeros to the given width, as in
`date.isoformat`'s fixed-width fields. -/
def padNum (w n : Nat) : String :=
  let s := toString n
  String.mk (List.replicate (w - s.data.length) '0' ++ s.data)

/-- Model of `date.isoformat()`: `YYYY-MM-DD` with zero padding. -/
def isoFormat (d : MyDate) : String :=
  padNum 4 d.year ++ "-" ++ padNum 2 d.month ++ "-" ++ padNum 2 d.day

/-! ### `ch_date_str` and `parse_iso_or_ch` (updater.py lines 53-69) -/

/-- The fixed German month-name table of `ch_date_str`. -/
def chMonths : List String :=
  ["Januar", "Februar", "Maerz", "April", "Mai", "Juni",
   "Juli", "August", "September", "Oktober", "November", "Dezember"]

/-- Model of `ch_date_str(d)` without the optional time part: renders
`f"{d.day}. {months[d.month-1]} {d.year}"`.  All call sites pass a
validated date, so `d.month - 1` is within the table; the out-of-range
fallback `""` is never reached. -/
def ch_date_str (d : MyDate) : String :=
  toString d.day ++ ". " ++ (chMonths.getD (d.month - 1) "") ++ " " ++ toString d.year

/-- The `%m` field of `datetime.strptime`: the regex alternation
`1[0-2]|0[1-9]|[1-9]`, alternatives tried left to right.  Returns the
month value and the unconsumed characters. -/
def monthField : List Char → Option (Nat × List Char)
  | '1' :: c :: rest =>
      if '0' ≤ c ∧ c ≤ '2' then some (10 + (c.toNat - 48), rest)
      else some (1, c :: rest)
  | '0' :: c :: rest =>
      if '1' ≤ c ∧ c ≤ '9' then some (c.toNat - 48, rest) else none
  | c :: rest =>
      if '1' ≤ c ∧ c ≤ '9' then some (c.toNat - 48, rest) else none
  | [] => none

/-- The `%d` field of `datetime.strptime`: the regex alternation
`3[01]|[12]\d|0[1-9]|[1-9]`, alternatives tried left to right. -/
def dayField : List Char → Option (Nat × List Char)
  | c :: rest =>
      if c = '3' then
        match rest with
        | c2 :: rest2 =>
            if c2 = '0' ∨ c2 = '1' then some (30 + (c2.toNat - 48), rest2)
            else some (3, rest)
        | [] => some (3, [])
      else if c = '1' ∨ c = '2' then
        match rest with
        | c2 :: rest2 =>
            if c2.isDigit then some ((c.toNat - 48) * 10 + (c2.toNat - 48), rest2)
            else some (c.toNat - 48, rest)
        | [] => some (c.toNat - 48, [])
      else if c = '0' then
        match rest with
        | c2 :: rest2 =>
            if '1' ≤ c2 ∧ c2 ≤ '9' then some (c2.toNat - 48, rest2) else none
        | [] => none
      else if '1' ≤ c ∧ c ≤ '9' then some (c.toNat - 48, rest)
      else none
  | [] => none

/-- Model of `datetime.strptime(s, "%Y-%m-%d")` followed by `.date()`:
`%Y` is exactly four digits, the separators are literal `-`, the whole
string must be consumed (`unconverted data remains` otherwise), and the
resulting numbers must form a valid `datetime.date`.  A `ValueError` is
`none`. -/
def strptimeYmd (s : String) : Option MyDate :=
  match s.data with
  | a :: b :: c :: d :: '-' :: rest =>
      if a.isDigit && b.isDigit && c.isDigit && d.isDigit then
        let y := (a.toNat - 48) * 1000 + (b.toNat - 48) * 100 + (c.toNat - 48) * 10 + (d.toNat - 48)
        match monthField rest with
        | some (m, '-' :: rest2) =>
            match dayField rest2 with
            | some (dd, []) => mkDate y m dd
            | _ => none
        | _ => none
      else none
  | _ => none

/-- Model of `parse_iso_or_ch(s)` (lines 61-69): strip, return `""` on empty,
otherwise try `strptime(s[:10], "%Y-%m-%d")` and render via
`ch_date_str`; on failure return the stripped input unchanged. -/
def parse_iso_or_ch (s : String) : String :=
  let t := pyStrip s
  if t = "" then ("")
  else
    match strptimeYmd (strTake t 10) with
    | some d => ch_date_str d
    | none => t

/-! ### `_extract_date_any` (updater.py lines 92-120)

`DATE_RX_NUM = (\d{1,2})\.(\d{1,2})\.(\d{4})` and
`DATE_RX_TEXT = (\d{1,2})\.\s*([A-Za-zäöüÄÖÜ]+)\s*(\d{4})` are embedded
as explicit leftmost-match backtracking matchers with Python `re.search`
semantics (`\d` modelled as ASCII digits, `\s` as `isPySpace`). -/

/-- Numeric value of an ASCII digit character. -/
def digitVal (c : Char) : Nat := c.toNat - 48

/-- After the day group of `DATE_RX_NUM`: the literal `\.` then the rest
of the pattern. -/
def numAfterDay (dd : Nat) : List Char → Option (Nat × Nat × Nat)
  | [] => none
  | c :: rest => if c = '.' then numMonthGroup dd rest else none
where
  /-- The month group `(\d{1,2})` (greedy, with backtracking to one
  digit) followed by the rest of the pattern. -/
  numMonthGroup (dd : Nat) : List Char → Option (Nat × Nat × Nat)
    | [] => none
    | c1 :: rest =>
        if c1.isDigit then
          match rest with
          | c2 :: rest2 =>
              if c2.isDigit then
                match numAfterMonth dd (digitVal c1 * 10 + digitVal c2) rest2 with
                | some r => some r
                | none => numAfterMonth dd (digitVal c1) rest
              else numAfterMonth dd (digitVal c1) rest
          | [] => numAfterMonth dd (digitVal c1) []
        else none
  /-- The literal `\.` then the year group `(\d{4})`. -/
  numAfterMonth (dd mm : Nat) : List Char → Option (Nat × Nat × Nat)
    | [] => none
    | c :: rest =>
        if c = '.' then
          match rest with
          | a :: b :: c3 :: d :: _ =>
              if a.isDigit && b.isDigit && c3.isDigit && d.isDigit then
                some (dd, mm, digitVal a * 1000 + digitVal b * 100 + digitVal c3 * 10 + digitVal d)
              else none
          | _ => none
        else none

/-- An anchored attempt of `DATE_RX_NUM` at the head of the list: the
day group `(\d{1,2})` greedy with backtracking, then `numAfterDay`. -/
def matchNumAt : List Char → Option (Nat × Nat × Nat)
  | [] => none
  | c1 :: rest =>
      if c1.isDigit then
        match rest with
        | c2 :: rest2 =>
            if c2.isDigit then
              match numAfterDay (digitVal c1 * 10 + digitVal c2) rest2 with
              | some r => some r
              | none => numAfterDay (digitVal c1) rest
            else numAfterDay (digitVal c1) rest
        | [] => numAfterDay (digitVal c1) []
      else none

/-- Model of `DATE_RX_NUM.search`: leftmost anchored attempt that succeeds. -/
def searchNum : List Char → Option (Nat × Nat × Nat)
  | [] => none
  | c :: t =>
      match matchNumAt (c :: t) with
      | some r => some r
      | none => searchNum t

/-- The character class `[A-Za-zäöüÄÖÜ]` of `DATE_RX_TEXT`. -/
def isLetterDE (c : Char) : Bool :=
  ('A' ≤ c && c ≤ 'Z') || ('a' ≤ c && c ≤ 'z') ||
  c = 'ä' || c = 'ö' || c = 'ü' || c = 'Ä' || c = 'Ö' || c = 'Ü'

/-- After the day group of `DATE_RX_TEXT`: literal `\.`, then
`\s*([A-Za-zäöüÄÖÜ]+)\s*(\d{4})` (the classes are pairwise disjoint, so
greedy scanning needs no further backtracking). -/
def textAfterDay (dd : Nat) : List Char → Option (Nat × List Char × Nat)
  | [] => none
  | c :: rest =>
      if c = '.' then
        let l1 := rest.dropWhile isPySpace
        let mon := l1.takeWhile isLetterDE
        if mon = [] then none
        else
          match (l1.dropWhile isLetterDE).dropWhile isPySpace with
          | a :: b :: c3 :: d :: _ =>
              if a.isDigit && b.isDigit && c3.isDigit && d.isDigit then
                some (dd, mon, digitVal a * 1000 + digitVal b * 100 + digitVal c3 * 10 + digitVal d)
              else none
          | _ => none
      else none

/-- An anchored attempt of `DATE_RX_TEXT` at the head of the list. -/
def matchTextAt : List Char → Option (Nat × List Char × Nat)
  | [] => none
  | c1 :: rest =>
      if c1.isDigit then
        match rest with
        | c2 :: rest2 =>
            if c2.isDigit then
              match textAfterDay (digitVal c1 * 10 + digitVal c2) rest2 with
              | some r => some r
              | none => textAfterDay (digitVal c1) rest
            else textAfterDay (digitVal c1) rest
        | [] => textAfterDay (digitVal c1) []
      else none

/-- Model of `DATE_RX_TEXT.search`: leftmost anchored attempt that succeeds. -/
def searchText : List Char → Option (Nat × List Char × Nat)
  | [] => none
  | c :: t =>
      match matchTextAt (c :: t) with
      | some r => some r
      | none => searchText t

/-- Model of `str.lower()` restricted to the characters matchable by
`DATE_RX_TEXT`'s letter class (exact on those). -/
def lowerDE (c : Char) : Char :=
  if 'A' ≤ c ∧ c ≤ 'Z' then Char.ofNat (c.toNat + 32)
  else if c = 'Ä' then 'ä' else if c = 'Ö' then 'ö' else if c = 'Ü' then 'ü'
  else c

/-- The `MONTHS_DE` table lookup (`MONTHS_DE.get(mon, None)`). -/
def monthsDE (m : String) : Option Nat :=
  if m = "januar" then some 1
  else if m = "februar" then some 2
  else if m = "maerz" then some 3
  else if m = "märz" then some 3
  else if m = "april" then some 4
  else if m = "mai" then some 5
  else if m = "juni" then some 6
  else if m = "juli" then some 7
  else if m = "august" then some 8
  else if m = "september" then some 9
  else if m = "oktober" then some 10
  else if m = "november" then some 11
  else if m = "dezember" then some 12
  else none

/-- The `DATE_RX_TEXT` phase of `_extract_date_any` (lines 109-120):
search, lowercase the month token, look it up, and build the date; a
`ValueError` from `date(...)` and a failed lookup both fall through to
`None`. -/
def textPhase (t : String) : Option MyDate :=
  match searchText t.data with
  | some (dd, mon, yyyy) =>
      match monthsDE (String.mk (mon.map lowerDE)) with
      | some mm => mkDate yyyy mm dd
      | none => none
  | none => none

/-- Model of `_extract_date_any(txt)` (lines 99-120): strip; on the first
`DATE_RX_NUM` match try `date(yyyy, mm, dd)`, a `ValueError` being
swallowed (`except: pass`) and control falling through to the
`DATE_RX_TEXT` phase, which is also tried when the numeric pattern never
matches. -/
def extract_date_any (txt : String) : Option MyDate :=
  let t := pyStrip txt
  if t = "" then none
  else
    match searchNum t.data with
    | some (dd, mm, yyyy) =>
        match mkDate yyyy mm dd with
        | some d => some d
        | none => textPhase t
    | none => textPhase t

/-- Whether some position of the text carries a `DATE_RX_NUM` match that
is a possible calendar date (the claim's "contains a DD.MM.YYYY substring
that denotes a valid calendar date"). -/
def hasValidDotDate : List Char → Bool
  | [] => false
  | c :: t =>
      (match matchNumAt (c :: t) with
       | some (dd, mm, yyyy) => (mkDate yyyy mm dd).isSome
       | none => false) || hasValidDotDate t

/-- C3 counterexample: the input contains the valid dotted date
`15.03.2024`, but the heuristic anchors on the first (leftmost) match
`31.02.2024`, which is an impossible date, swallows the error and — with
no German textual date present — returns no date at all, contradicting
"for every text input containing a DD.MM.YYYY substring that denotes a
valid calendar date, the date heuristic returns exactly that
day/month/year". -/
theorem c3_first_match_shadowing_counterexample :
    hasValidDotDate ("31.02.2024 und 15.03.2024".data) = true ∧
    extract_date_any ("31.02.2024 und 15.03.2024") = none := by
  constructor
  · decide
  · decide

/-- C3 (amended): the heuristic inspects only the first `DD.MM.YYYY`
match: whenever the leftmost `DATE_RX_NUM` match is a possible calendar
date, exactly that day/month/year is returned; an impossible first match
is swallowed without raising and control falls to the German
textual-month pattern (which may still return a date) and otherwise the
heuristic yields no date.  The function is total, so no exception ever
propagates. -/
theorem c3_first_dotted_match_wins (txt : String) (dd mm yyyy : Nat) (d : MyDate)
    (hm : searchNum (pyStrip txt).data = some (dd, mm, yyyy))
    (hv : mkDate yyyy mm dd = some d) :
    extract_date_any txt = some d := by
  have hne : pyStrip txt ≠ "" := by
    intro h
    rw [h] at hm
    rw [show (("" : String).data) = [] from rfl] at hm
    exact Option.noConfusion (hm.symm.trans (rfl : searchNum [] = none)).symm
  simp only [extract_date_any]
  rw [if_neg hne, hm]
  simp [hv]

/-- Witness for C3 (amended) at a concrete input. -/
theorem c3_first_dotted_match_wins_witness :
    extract_date_any ("IGUV GV am 15.03.2025") = some ⟨2025, 3, 15⟩ :=
  c3_first_dotted_match_wins ("IGUV GV am 15.03.2025") 15 3 2025 ⟨2025, 3, 15⟩
    (by decide) (by decide)

/-- C4 counterexample: `2025-03-15` is a well-formed ISO date (it parses
under `%Y-%m-%d`), yet the free-text date heuristic returns no date for
it — `_extract_date_any` has no ISO pattern family at all (both of its
regexes require a literal dot). -/
theorem c4_iso_not_tried_counterexample :
    strptimeYmd ("2025-03-15") = some ⟨2025, 3, 15⟩ ∧
    extract_date_any ("2025-03-15") = none := by
  constructor
  · decide
  · decide

theorem numAfterDay_dot {dd : Nat} {l : List Char} {r : Nat × Nat × Nat}
    (h : numAfterDay dd l = some r) : '.' ∈ l := by
  cases l with
  | nil => exact Option.noConfusion h
  | cons c t =>
      by_cases hc : c = '.'
      · rw [hc]; exact List.mem_cons_self _ _
      · rw [numAfterDay, if_neg hc] at h
        exact Option.noConfusion h

theorem matchNumAt_dot {l : List Char} {r : Nat × Nat × Nat}
    (h : matchNumAt l = some r) : '.' ∈ l := by
  cases l with
  | nil => exact Option.noConfusion h
  | cons c1 rest =>
      rw [matchNumAt.eq_def] at h
      dsimp only at h
      by_cases h1 : c1.isDigit
      · rw [if_pos h1] at h
        cases rest with
        | nil =>
            exact Option.noConfusion ((rfl : numAfterDay (digitVal c1) [] = none).symm.trans h)
        | cons c2 rest2 =>
            dsimp only at h
            by_cases h2 : c2.isDigit
            · rw [if_pos h2] at h
              cases hm : numAfterDay (digitVal c1 * 10 + digitVal c2) rest2 with
              | some r2 =>
                  exact List.mem_cons_of_mem _ (List.mem_cons_of_mem _ (numAfterDay_dot hm))
              | none =>
                  rw [hm] at h
                  exact List.mem_cons_of_mem _ (numAfterDay_dot h)
            · rw [if_neg h2] at h
              exact List.mem_cons_of_mem _ (numAfterDay_dot h)
      · rw [if_neg h1] at h
        exact Option.noConfusion h

theorem searchNum_eq_none_of_no_dot {l : List Char} (h : '.' ∉ l) :
    searchNum l = none := by
  induction l with
  | nil => rfl
  | cons c t ih =>
      rw [searchNum]
      cases hm : matchNumAt (c :: t) with
      | some r => exact absurd (matchNumAt_dot hm) h
      | none => exact ih (fun hmem => h (List.mem_cons_of_mem _ hmem))

theorem textAfterDay_dot {dd : Nat} {l : List Char} {r : Nat × List Char × Nat}
    (h : textAfterDay dd l = some r) : '.' ∈ l := by
  cases l with
  | nil => exact Option.noConfusion h
  | cons c t =>
      by_cases hc : c = '.'
      · rw [hc]; exact List.mem_cons_self _ _
      · rw [textAfterDay, if_neg hc] at h
        exact Option.noConfusion h

theorem matchTextAt_dot {l : List Char} {r : Nat × List Char × Nat}
    (h : matchTextAt l = some r) : '.' ∈ l := by
  cases l with
  | nil => exact Option.noConfusion h
  | cons c1 rest =>
      rw [matchTextAt.eq_def] at h
      dsimp only at h
      by_cases h1 : c1.isDigit
      · rw [if_pos h1] at h
        cases rest with
        | nil =>
            exact Option.noConfusion ((rfl : textAfterDay (digitVal c1) [] = none).symm.trans h)
        | cons c2 rest2 =>
            dsimp only at h
            by_cases h2 : c2.isDigit
            · rw [if_pos h2] at h
              cases hm : textAfterDay (digitVal c1 * 10 + digitVal c2) rest2 with
              | some r2 =>
                  exact List.mem_cons_of_mem _ (List.mem_cons_of_mem _ (textAfterDay_dot hm))
              | none =>
                  rw [hm] at h
                  exact List.mem_cons_of_mem _ (textAfterDay_dot h)
            · rw [if_neg h2] at h
              exact List.mem_cons_of_mem _ (textAfterDay_dot h)
      · rw [if_neg h1] at h
        exact Option.noConfusion h

theorem searchText_eq_none_of_no_dot {l : List Char} (h : '.' ∉ l) :
    searchText l = none := by
  induction l with
  | nil => rfl
  | cons c t ih =>
      rw [searchText]
      cases hm : matchTextAt (c :: t) with
      | some r => exact absurd (matchTextAt_dot hm) h
      | none => exact ih (fun hmem => h (List.mem_cons_of_mem _ hmem))

theorem pyStrip_data_mem {c : Char} {s : String} (h : c ∈ (pyStrip s).data) :
    c ∈ s.data := by
  unfold pyStrip at h
  rw [List.mem_reverse] at h
  have h2 := (List.dropWhile_sublist (l := (s.data.dropWhile isPySpace).reverse)
    (p := isPySpace)).mem h
  rw [List.mem_reverse] at h2
  exact (List.dropWhile_sublist (l := s.data) (p := isPySpace)).mem h2

/-- C4 (amended): the free-text heuristic has no ISO family — both of
its pattern families demand a literal `.`, so every input without a dot
(in particular every pure `YYYY-MM-DD` string) yields no date. -/
theorem c4_no_dot_no_date (txt : String) (h : '.' ∉ txt.data) :
    extract_date_any txt = none := by
  have hs : '.' ∉ (pyStrip txt).data := fun hmem => h (pyStrip_data_mem hmem)
  simp only [extract_date_any]
  by_cases hne : pyStrip txt = ""
  · rw [if_pos hne]
  · rw [if_neg hne, searchNum_eq_none_of_no_dot hs, textPhase,
      searchText_eq_none_of_no_dot hs]

/-- Witness for C4 (amended) at a concrete dotless ISO input. -/
theorem c4_no_dot_no_date_witness :
    extract_date_any ("2026-01-02") = none :=
  c4_no_dot_no_date ("2026-01-02") (by decide)

/-! ### `sanitize_text` and `html.escape` (updater.py lines 80-89, render)

`html.unescape` is modelled for numeric character references and the
common named entities the feed texts use; `_TAG_RX = <[^>]+>` and
`WS_RX = \s+` are modelled exactly.  The fuel arguments equal the input
length, which each step strictly consumes, so the fuel never runs out. -/

/-- Is `pre` a leading segment of `l`? -/
def charsHasPre : List Char → List Char → Bool
  | [], _ => true
  | _ :: _, [] => false
  | a :: as, b :: bs => a = b && charsHasPre as bs

/-- Hexadecimal digit test for `&#x...;` references. -/
def isHexDig (c : Char) : Bool :=
  c.isDigit || ('a' ≤ c && c ≤ 'f') || ('A' ≤ c && c ≤ 'F')

/-- Hexadecimal digit value. -/
def hexVal (c : Char) : Nat :=
  if c.isDigit then digitVal c
  else if 'a' ≤ c ∧ c ≤ 'f' then c.toNat - 87
  else if 'A' ≤ c ∧ c ≤ 'F' then c.toNat - 55
  else 0

/-- The character a numeric reference resolves to: invalid code points
become U+FFFD as in `html.unescape`'s invalid-charref handling. -/
def refChar (n : Nat) : Char :=
  if n ≠ 0 && (Char.ofNat n).toNat = n then Char.ofNat n else '�'

/-- The named entities modelled (name, replacement); `html.unescape`
knows the full HTML5 table, of which the script's inputs only meet these
common ones. -/
def namedEntTable : List (List Char × Char) :=
  [("amp".data, '&'), ("lt".data, '<'), ("gt".data, '>'),
   ("quot".data, '"'), ("apos".data, '\x27'), ("nbsp".data, '\xa0')]

/-- Try to read one entity after a `&`; returns the replacement character
and the number of characters consumed. -/
def entMatch (l : List Char) : Option (Char × Nat) :=
  match l with
  | '#' :: rest =>
      match rest with
      | 'x' :: rest2 => (hexEnt rest2).map (fun p => (p.1, p.2 + 2))
      | 'X' :: rest2 => (hexEnt rest2).map (fun p => (p.1, p.2 + 2))
      | _ =>
          let ds := rest.takeWhile Char.isDigit
          if ds.isEmpty then none
          else
            let v := ds.foldl (fun a c => a * 10 + digitVal c) 0
            some (refChar v,
              1 + ds.length + (if (rest.drop ds.length).head? = some ';' then 1 else 0))
  | _ =>
      namedEntTable.foldr
        (fun p acc =>
          if charsHasPre (p.1 ++ [';']) l then some (p.2, p.1.length + 1) else acc)
        none
where
  /-- Hexadecimal numeric reference body. -/
  hexEnt (l2 : List Char) : Option (Char × Nat) :=
    let ds := l2.takeWhile isHexDig
    if ds.isEmpty then none
    else
      let v := ds.foldl (fun a c => a * 16 + hexVal c) 0
      some (refChar v,
        ds.length + (if (l2.drop ds.length).head? = some ';' then 1 else 0))

/-- Model of `html.unescape` scan; fuel-driven structural recursion (every step
consumes at least one input character). -/
def unescapeGo : Nat → List Char → List Char
  | 0, l => l
  | _ + 1, [] => []
  | fuel + 1, c :: rest =>
      if c = '&' then
        match entMatch rest with
        | some (ch, n) => ch :: unescapeGo fuel (rest.drop n)
        | none => '&' :: unescapeGo fuel rest
      else c :: unescapeGo fuel rest

/-- Model of `html.unescape(s)` on the character list. -/
def unescapeChars (l : List Char) : List Char := unescapeGo l.length l

/-- Index of the first character satisfying `p`. -/
def firstIdxP (p : Char → Bool) : List Char → Option Nat
  | [] => none
  | c :: t => if p c then some 0 else (firstIdxP p t).map (· + 1)

/-- Model of `_TAG_RX.sub("", s)`: delete every leftmost non-overlapping match of
`<[^>]+>`; a `<` with no later `>` (or an immediately following `>`) is
kept verbatim. -/
def stripTagsGo : Nat → List Char → List Char
  | 0, l => l
  | _ + 1, [] => []
  | fuel + 1, c :: rest =>
      if c = '<' then
        match firstIdxP (· = '>') rest with
        | some n => if 1 ≤ n then stripTagsGo fuel (rest.drop (n + 1))
                    else '<' :: stripTagsGo fuel rest
        | none => '<' :: stripTagsGo fuel rest
      else c :: stripTagsGo fuel rest

/-- Model of `WS_RX.sub(" ", s)`: collapse every whitespace run into one space. -/
def wsCollapseGo : Nat → List Char → List Char
  | 0, l => l
  | _ + 1, [] => []
  | fuel + 1, c :: rest =>
      if isPySpace c then ' ' :: wsCollapseGo fuel (rest.dropWhile isPySpace)
      else c :: wsCollapseGo fuel rest

/-- Model of `sanitize_text(s)` (lines 83-89) for a string argument: decode HTML
entities, strip tags, collapse whitespace, strip.  (The `if not s`
early return coincides with the composition at `""`.) -/
def sanitize_text (s : String) : String :=
  pyStrip (String.mk
    (wsCollapseGo (stripTagsGo (unescapeChars s.data).length (unescapeChars s.data)).length
      (stripTagsGo (unescapeChars s.data).length (unescapeChars s.data))))

/-- Replacement text of one character under `html.escape(s, quote=True)`. -/
def escChar (c : Char) : List Char :=
  if c = '&' then ("&amp;").data
  else if c = '<' then ("&lt;").data
  else if c = '>' then ("&gt;").data
  else if c = '"' then ("&quot;").data
  else if c = '\x27' then ("&#x27;").data
  else [c]

/-- Model of `html.escape(s, quote=True)`: the sequential replacements are
equivalent to this single character-wise pass. -/
def htmlEscape (s : String) : String :=
  String.mk (s.data.foldr (fun c acc => escChar c ++ acc) [])

/-- No character of `html.escape` output is a raw `<`, `>`, `"` or
single quote. -/
theorem htmlEscape_no_markup (s : String) :
    ∀ c ∈ (htmlEscape s).data, c ≠ '<' ∧ c ≠ '>' ∧ c ≠ '"' ∧ c ≠ '\x27' := by
  show ∀ c ∈ s.data.foldr (fun c acc => escChar c ++ acc) [], _
  induction s.data with
  | nil => intro c hc; exact absurd hc (List.not_mem_nil c)
  | cons a t ih =>
      intro c hc
      rcases List.mem_append.mp hc with h | h
      · unfold escChar at h
        split_ifs at h with h1 h2 h3 h4 h5
        · fin_cases h <;> simp
        · fin_cases h <;> simp
        · fin_cases h <;> simp
        · fin_cases h <;> simp
        · fin_cases h <;> simp
        · rcases List.mem_singleton.mp h with rfl
          exact ⟨h2, h3, h4, h5⟩
      · exact ih c h

/-! ### `fetch_upcoming_iguv_events` (updater.py lines 122-178)

The HTML soup is modelled as the lists of nodes the two collection loops
visit: `TimeNode` carries what the `<time>` loop reads from a node,
`GenNode` what the generic loop reads.  `requests.compat.urljoin` is
modelled for the cases the script meets (absolute http(s) URLs,
root-relative and document-relative references). -/

/-- A candidate event record (`{"date_iso": ..., "title": ..., "url": ...}`). -/
structure Event where
  date_iso : String
  title : String
  url : String
deriving DecidableEq, Repr

/-- Python string `<=` on code points, lexicographic. -/
def strLeListB : List Char → List Char → Bool
  | [], _ => true
  | _ :: _, [] => false
  | a :: as, b :: bs =>
      if a.toNat < b.toNat then true
      else if b.toNat < a.toNat then false
      else strLeListB as bs

theorem strLeListB_total : ∀ as bs : List Char,
    strLeListB as bs = true ∨ strLeListB bs as = true := by
  intro as
  induction as with
  | nil => intro bs; left; rfl
  | cons a as ih =>
      intro bs
      cases bs with
      | nil => right; rfl
      | cons b bs =>
          simp only [strLeListB]
          rcases ih bs with h | h <;> split_ifs <;> simp [h]

theorem strLeListB_trans : ∀ as bs cs : List Char,
    strLeListB as bs = true → strLeListB bs cs = true → strLeListB as cs = true := by
  intro as
  induction as with
  | nil => intro bs cs _ _; rfl
  | cons a as ih =>
      intro bs cs h1 h2
      cases bs with
      | nil => exact absurd h1 (by simp [strLeListB])
      | cons b bs =>
          cases cs with
          | nil => exact absurd h2 (by simp [strLeListB])
          | cons c cs =>
              simp only [strLeListB] at h1 h2 ⊢
              split_ifs at h1 h2 ⊢ <;>
                first
                | rfl
                | omega
                | exact ih bs cs h1 h2

/-- The sort key relation of `sorted(candidates, key=lambda it:
it["date_iso"])`. -/
abbrev evLeP (a b : Event) : Prop := strLeListB a.date_iso.data b.date_iso.data = true

instance : IsTotal Event evLeP := ⟨fun _ _ => strLeListB_total _ _⟩

instance : IsTrans Event evLeP := ⟨fun _ _ _ => strLeListB_trans _ _ _⟩

/-- The dedup key `(e["date_iso"], e.get("url",""), e.get("title","")[:80])`
(line 170). -/
def eventKey (e : Event) : String × String × String :=
  (e.date_iso, e.url, strTake e.title 80)

/-- The dedup-and-cap loop of lines 168-175: first key occurrence wins,
the entry is appended, and the loop breaks once `len(out) >= n` right
after an append. -/
def dedupGo : List Event → List (String × String × String) → Nat → Nat → List Event
  | [], _, _, _ => []
  | e :: rest, seen, cnt, n =>
      if eventKey e ∈ seen then dedupGo rest seen cnt n
      else
        e :: (if cnt + 1 ≥ n then [] else dedupGo rest (eventKey e :: seen) (cnt + 1) n)

/-- Model of `sorted(candidates, key=lambda it: it["date_iso"])` — a stable sort,
ascending on the ISO date string. -/
def sortCandidates (cs : List Event) : List Event := List.insertionSort evLeP cs

/-- Lines 167-175 as a whole: sort ascending by `date_iso`, then dedup
with first-occurrence-wins and cap at `n`. -/
def dedupAndCap (cs : List Event) (n : Nat) : List Event :=
  dedupGo (sortCandidates cs) [] 0 n

theorem dedupGo_sublist : ∀ (l : List Event) seen cnt n,
    List.Sublist (dedupGo l seen cnt n) l := by
  intro l
  induction l with
  | nil => intro seen cnt n; exact List.Sublist.refl _
  | cons e rest ih =>
      intro seen cnt n
      rw [dedupGo]
      split
      · exact (ih seen cnt n).cons e
      · refine List.Sublist.cons₂ e ?_
        split
        · exact List.nil_sublist _
        · exact ih _ _ _

theorem dedupGo_key_fresh_and_nodup : ∀ (l : List Event) seen cnt n,
    (∀ e ∈ dedupGo l seen cnt n, eventKey e ∉ seen) ∧
    (dedupGo l seen cnt n).Pairwise (fun a b => eventKey a ≠ eventKey b) := by
  intro l
  induction l with
  | nil =>
      intro seen cnt n
      exact ⟨fun e he => absurd he (List.not_mem_nil e), List.Pairwise.nil⟩
  | cons e rest ih =>
      intro seen cnt n
      rw [dedupGo]
      by_cases hmem : eventKey e ∈ seen
      · rw [if_pos hmem]
        exact ih seen cnt n
      · rw [if_neg hmem]
        by_cases hcap : cnt + 1 ≥ n
        · rw [if_pos hcap]
          refine ⟨?_, by simp⟩
          intro x hx
          rcases List.mem_cons.mp hx with rfl | hx
          · exact hmem
          · exact absurd hx (List.not_mem_nil x)
        · rw [if_neg hcap]
          obtain ⟨ihA, ihB⟩ := ih (eventKey e :: seen) (cnt + 1) n
          constructor
          · intro x hx
            rcases List.mem_cons.mp hx with rfl | hx
            · exact hmem
            · intro hxs
              exact ihA x hx (List.mem_cons_of_mem _ hxs)
          · refine List.Pairwise.cons ?_ ihB
            intro x hx
            intro hkey
            exact ihA x hx (by rw [← hkey]; exact List.mem_cons_self _ _)

/-- C5 counterexample: two candidates that share an identical
`(title, url)` pair but differ in `date_iso` BOTH survive — the dedup
key is `(date_iso, url, title[:80])`, not `(title, url)`, so the output
does not contain exactly one entry for the pair. -/
theorem c5_dedup_key_counterexample :
    dedupAndCap
      [⟨"2025-11-05", "IGUV Herbsttagung", "https://iguv.ch/event/tagung/"⟩,
       ⟨"2025-11-06", "IGUV Herbsttagung", "https://iguv.ch/event/tagung/"⟩] 3 =
      [⟨"2025-11-05", "IGUV Herbsttagung", "https://iguv.ch/event/tagung/"⟩,
       ⟨"2025-11-06", "IGUV Herbsttagung", "https://iguv.ch/event/tagung/"⟩] ∧
    (⟨"2025-11-05", "IGUV Herbsttagung", "https://iguv.ch/event/tagung/"⟩ : Event) ≠
      ⟨"2025-11-06", "IGUV Herbsttagung", "https://iguv.ch/event/tagung/"⟩ := by
  constructor
  · decide
  · decide

/-- C5 (amended): deduplication is on the triple key
`(date_iso, url, title[:80])`: the processed output never holds two
entries with an equal triple key (two entries agreeing only on
`(title, url)` may both appear, and the cap may drop later keys
entirely). -/
theorem c5_dedup_by_triple_key (cs : List Event) (n : Nat) :
    (dedupAndCap cs n).Pairwise (fun a b => eventKey a ≠ eventKey b) :=
  (dedupGo_key_fresh_and_nodup (sortCandidates cs) [] 0 n).2

/-- C6 counterexample: the later-dated candidate is listed first in the
input, yet the processed sequence puts the earlier date first — the code
sorts ascending, so the adjacent pair violates "the earlier item's date
is greater than or equal to the later item's date". -/
theorem c6_sort_ascending_counterexample :
    dedupAndCap
      [⟨"2025-01-02", "Event B", "https://iguv.ch/event/b/"⟩,
       ⟨"2025-01-01", "Event A", "https://iguv.ch/event/a/"⟩] 5 =
      [⟨"2025-01-01", "Event A", "https://iguv.ch/event/a/"⟩,
       ⟨"2025-01-02", "Event B", "https://iguv.ch/event/b/"⟩] ∧
    strLeListB ("2025-01-02".data) ("2025-01-01".data) = false := by
  constructor
  · decide
  · decide

/-- C6 (amended): before deduplication and capping the candidates are
sorted by `date_iso` ASCENDING (oldest/soonest first): every adjacent
pair of the processed sequence satisfies `earlier ≤ later` on the ISO
date string. -/
theorem c6_processed_sorted_ascending (cs : List Event) (n : Nat) :
    (dedupAndCap cs n).Sorted evLeP :=
  (List.sorted_insertionSort evLeP cs).sublist (dedupGo_sublist (sortCandidates cs) [] 0 n)

/-- What the `<time>` loop (lines 134-152) reads from one node:
`t.get("datetime")`, `t.get_text(" ", strip=True)`, the text of
`t.find_parent(["article","li","div","section"]) or t`, and the `href`
of the first link found in the parent (falling back to the node). -/
structure TimeNode where
  datetimeAttr : String
  text : String
  parentText : String
  linkHref : Option String

/-- What the generic loop (lines 155-165) reads from one node: its text,
its parent's text when a parent exists, and the effective `href` (the
node itself if it is an anchor with `href`, else its first inner
anchor). -/
structure GenNode where
  text : String
  parentText : Option String
  href : Option String

/-- Model of `datetime.fromisoformat(s).date()` modelled for the calendar-date
form `YYYY-MM-DD` (the only form the `datetime` attributes carry);
failure is `none`. -/
def fromIsoDate (s : String) : Option MyDate :=
  match s.data with
  | [a, b, c, d, h1, e, f, h2, g, h] =>
      if h1 = '-' && h2 = '-' && a.isDigit && b.isDigit && c.isDigit && d.isDigit &&
          e.isDigit && f.isDigit && g.isDigit && h.isDigit then
        mkDate (digitVal a * 1000 + digitVal b * 100 + digitVal c * 10 + digitVal d)
          (digitVal e * 10 + digitVal f) (digitVal g * 10 + digitVal h)
      else none
  | _ => none

/-- Does the string start with an absolute http(s) scheme? -/
def hasHttpScheme (s : String) : Bool :=
  charsHasPre ("http://".data) s.data || charsHasPre ("https://".data) s.data

/-- Model of `requests.compat.urljoin(base, rel)` modelled for the cases the
script meets: an absolute http(s) `rel` replaces the base, a
root-relative `rel` is joined to the base's scheme and host, and any
other `rel` is joined to the base's directory. -/
def urljoinModel (base rel : String) : String :=
  if hasHttpScheme rel then rel
  else if rel = "" then base
  else if rel.data.head? = some '/' then
    String.mk (schemeHostChars base.data) ++ rel
  else
    String.mk ((base.data.reverse.dropWhile (· ≠ '/')).reverse) ++ rel
where
  /-- Scheme and authority of an absolute http(s) URL. -/
  schemeHostChars (l : List Char) : List Char :=
    let k := if charsHasPre ("https://".data) l then 8 else 7
    l.take k ++ (l.drop k).takeWhile (· ≠ '/')

/-- The `href or url` / `urljoin` handling shared by both loops
(lines 150-152, 162-165): a missing or empty `href` falls back to the
page URL. -/
def resolveHref (pageUrl : String) : Option String → String
  | some h => if h = "" then pageUrl else urljoinModel pageUrl h
  | none => pageUrl

/-- One iteration of the `<time>` loop: ISO-parse the `datetime`
attribute (first ten characters), fall back to `_extract_date_any` on
the node text, skip the node when no date was found or the date lies
before today, and otherwise build the candidate dict. -/
def candOfTimeNode (pageUrl : String) (today : MyDate) (t : TimeNode) : Option Event :=
  let dAttr : Option MyDate :=
    if pyStrip t.datetimeAttr = "" then none
    else fromIsoDate (strTake (pyStrip t.datetimeAttr) 10)
  match dAttr.orElse (fun _ => extract_date_any t.text) with
  | none => none
  | some d =>
      if dateLt d today then none
      else some { date_iso := isoFormat d,
                  title := strTake (sanitize_text t.parentText) 220,
                  url := resolveHref pageUrl t.linkHref }

/-- One iteration of the generic loop: extract a date from the sanitized
node text, falling back to the sanitized parent text, skip when no date
was found or the date lies before today, and otherwise build the
candidate dict. -/
def candOfGenNode (pageUrl : String) (today : MyDate) (g : GenNode) : Option Event :=
  let txt := sanitize_text g.text
  match (extract_date_any txt).orElse (fun _ =>
      extract_date_any (match g.parentText with
                        | some p => sanitize_text p
                        | none => "")) with
  | none => none
  | some d =>
      if dateLt d today then none
      else some { date_iso := isoFormat d,
                  title := strTake txt 220,
                  url := resolveHref pageUrl g.href }

/-- Model of `fetch_upcoming_iguv_events` from the point where the page has been
fetched and parsed: both collection loops followed by the dedup-sort-cap
of lines 167-175. -/
def fetchUpcomingModel (pageUrl : String) (tns : List TimeNode) (gns : List GenNode)
    (today : MyDate) (n : Nat) : List Event :=
  dedupAndCap
    (tns.filterMap (candOfTimeNode pageUrl today) ++
     gns.filterMap (candOfGenNode pageUrl today)) n

theorem candOfTimeNode_future {pageUrl : String} {today : MyDate} {t : TimeNode} {e : Event}
    (h : candOfTimeNode pageUrl today t = some e) :
    ∃ d, dateLe today d ∧ e.date_iso = isoFormat d := by
  simp only [candOfTimeNode] at h
  split at h
  · exact Option.noConfusion h
  · rename_i d hd
    split at h
    · exact Option.noConfusion h
    · rename_i hlt
      refine ⟨d, dateLe_of_not_lt hlt, ?_⟩
      rw [← Option.some.inj h]

theorem candOfGenNode_future {pageUrl : String} {today : MyDate} {g : GenNode} {e : Event}
    (h : candOfGenNode pageUrl today g = some e) :
    ∃ d, dateLe today d ∧ e.date_iso = isoFormat d := by
  simp only [candOfGenNode] at h
  split at h
  · exact Option.noConfusion h
  · rename_i d hd
    split at h
    · exact Option.noConfusion h
    · rename_i hlt
      refine ⟨d, dateLe_of_not_lt hlt, ?_⟩
      rw [← Option.some.inj h]

/-- The concrete `<time>` node of the C7 witness scenario: an event
dated exactly "today". -/
def sampleTimeNode : TimeNode :=
  ⟨"", "15.03.2025", "IGUV GV 15.03.2025", some ("https://iguv.ch/event/gv/")⟩

/-- C7: every event the upcoming-events extractor returns carries a date
`>= today` (its `date_iso` is the ISO form of a date not before today),
and an event dated exactly today qualifies: on a node dated "today" the
extractor emits the event. -/
theorem c7_upcoming_events_not_past :
    (∀ (pageUrl : String) (tns : List TimeNode) (gns : List GenNode)
       (today : MyDate) (n : Nat) (e : Event),
       e ∈ fetchUpcomingModel pageUrl tns gns today n →
       ∃ d, dateLe today d ∧ e.date_iso = isoFormat d) ∧
    fetchUpcomingModel ("https://iguv.ch/event/") [sampleTimeNode] [] ⟨2025, 3, 15⟩ 3 =
      [⟨"2025-03-15", "IGUV GV 15.03.2025", "https://iguv.ch/event/gv/"⟩] := by
  constructor
  · intro pageUrl tns gns today n e he
    have h1 : e ∈ sortCandidates
        (tns.filterMap (candOfTimeNode pageUrl today) ++
         gns.filterMap (candOfGenNode pageUrl today)) :=
      (dedupGo_sublist _ [] 0 n).mem he
    have h2 : e ∈ tns.filterMap (candOfTimeNode pageUrl today) ++
        gns.filterMap (candOfGenNode pageUrl today) :=
      (List.perm_insertionSort evLeP _).mem_iff.mp h1
    rcases List.mem_append.mp h2 with h3 | h3
    · obtain ⟨t, _, ht⟩ := List.mem_filterMap.mp h3
      exact candOfTimeNode_future ht
    · obtain ⟨g, _, hg⟩ := List.mem_filterMap.mp h3
      exact candOfGenNode_future hg
  · decide

/-- Witness for C7 discharging the membership hypothesis at the
concrete scenario. -/
theorem c7_upcoming_events_not_past_witness :
    ∃ d, dateLe ⟨2025, 3, 15⟩ d ∧
      ("2025-03-15" : String) = isoFormat d :=
  c7_upcoming_events_not_past.1 ("https://iguv.ch/event/") [sampleTimeNode] []
    ⟨2025, 3, 15⟩ 3 ⟨"2025-03-15", "IGUV GV 15.03.2025", "https://iguv.ch/event/gv/"⟩
    (by decide)

/-! ### JSON values and `json.loads` (for `call_openai`, lines 272-319)

Python values decoded from JSON are modelled by `Json`; `json.loads` is
a fuel-driven recursive-descent parser over the character list (strict
mode: no control characters in strings, no trailing data; numbers keep
their sign/integer/fraction/exponent components; `\uXXXX` escapes decode
to the corresponding scalar, with non-scalar code points modelled as
U+FFFD).  A raised Python exception is `none` throughout. -/

inductive Json where
  | null : Json
  | bool (b : Bool) : Json
  | num (neg : Bool) (ip : Nat) (frac : List Nat) (ex : Int) : Json
  | str (s : String) : Json
  | arr (elems : List Json) : Json
  | obj (members : List (String × Json)) : Json
deriving Repr

/-- JSON inter-token whitespace (space, tab, newline, carriage return). -/
def isJsonWs (c : Char) : Bool :=
  c = ' ' || c = '\t' || c = '\n' || c = '\r'

/-- Skip JSON whitespace. -/
def skipWs (l : List Char) : List Char := l.dropWhile isJsonWs

/-- Single-character JSON string escapes. -/
def escMap (e : Char) : Option Char :=
  if e = '"' then some '"'
  else if e = '\\' then some '\\'
  else if e = '/' then some '/'
  else if e = 'b' then some '\x08'
  else if e = 'f' then some '\x0c'
  else if e = 'n' then some '\n'
  else if e = 'r' then some '\r'
  else if e = 't' then some '\t'
  else none

/-- Parse a JSON string body after the opening quote; returns the
decoded characters and the input after the closing quote. -/
def pStrBody : List Char → Option (List Char × List Char)
  | [] => none
  | c :: rest =>
      if c = '"' then some ([], rest)
      else if c = '\\' then
        match rest with
        | [] => none
        | e :: rest2 =>
            if e = 'u' then
              match rest2 with
              | a :: b :: c3 :: d :: rest3 =>
                  if isHexDig a && isHexDig b && isHexDig c3 && isHexDig d then
                    (pStrBody rest3).map (fun p =>
                      (refChar (hexVal a * 4096 + hexVal b * 256 + hexVal c3 * 16 + hexVal d) :: p.1,
                       p.2))
                  else none
              | _ => none
            else
              match escMap e with
              | some ch => (pStrBody rest2).map (fun p => (ch :: p.1, p.2))
              | none => none
      else if c.toNat < 32 then none
      else (pStrBody rest).map (fun p => (c :: p.1, p.2))

/-- Parse a JSON number (`-? int frac? exp?`, no leading zeros). -/
def pNum (l : List Char) : Option (Json × List Char) :=
  let (neg, l1) := match l with
    | '-' :: t => (true, t)
    | _ => (false, l)
  let ds := l1.takeWhile Char.isDigit
  if ds.isEmpty then none
  else if 2 ≤ ds.length ∧ ds.head? = some '0' then none
  else
    let ip := ds.foldl (fun a c => a * 10 + digitVal c) 0
    let l2 := l1.drop ds.length
    match l2 with
    | '.' :: l3 =>
        let fs := l3.takeWhile Char.isDigit
        if fs.isEmpty then none
        else pExp neg ip (fs.map digitVal) (l3.drop fs.length)
    | _ => pExp neg ip [] l2
where
  /-- Optional exponent part. -/
  pExp (neg : Bool) (ip : Nat) (frac : List Nat) (l4 : List Char) : Option (Json × List Char) :=
    match l4 with
    | c :: l5 =>
        if c = 'e' ∨ c = 'E' then
          let (eneg, l6) := match l5 with
            | '-' :: t => (true, t)
            | '+' :: t => (false, t)
            | _ => (false, l5)
          let es := l6.takeWhile Char.isDigit
          if es.isEmpty then none
          else
            let ev : Nat := es.foldl (fun a c2 => a * 10 + digitVal c2) 0
            some (Json.num neg ip frac (if eneg then -(ev : Int) else (ev : Int)),
              l6.drop es.length)
        else some (Json.num neg ip frac 0, l4)
    | [] => some (Json.num neg ip frac 0, [])

/-- Model of `dict.__setitem__` / JSON object member insertion: an existing key
keeps its position and takes the new value, a fresh key is appended. -/
def objInsert (acc : List (String × Json)) (k : String) (v : Json) : List (String × Json) :=
  if acc.any (fun p => p.1 == k) then
    acc.map (fun p => if p.1 == k then (p.1, v) else p)
  else acc ++ [(k, v)]

mutual

/-- Parse one JSON value; the fuel bounds the recursion depth. -/
def pVal : Nat → List Char → Option (Json × List Char)
  | 0, _ => none
  | fuel + 1, l =>
      match skipWs l with
      | [] => none
      | c :: rest =>
          if c = '\x7b' then pMembers fuel rest [] true
          else if c = '[' then pElems fuel rest [] true
          else if c = '"' then
            (pStrBody rest).map (fun p => (Json.str (String.mk p.1), p.2))
          else if c = 't' then
            match rest with
            | 'r' :: 'u' :: 'e' :: r2 => some (Json.bool true, r2)
            | _ => none
          else if c = 'f' then
            match rest with
            | 'a' :: 'l' :: 's' :: 'e' :: r2 => some (Json.bool false, r2)
            | _ => none
          else if c = 'n' then
            match rest with
            | 'u' :: 'l' :: 'l' :: r2 => some (Json.null, r2)
            | _ => none
          else pNum (c :: rest)

/-- Parse JSON object members up to the closing brace. -/
def pMembers : Nat → List Char → List (String × Json) → Bool → Option (Json × List Char)
  | 0, _, _, _ => none
  | fuel + 1, l, acc, allowClose =>
      match skipWs l with
      | '\x7d' :: rest => if allowClose then some (Json.obj acc, rest) else none
      | '"' :: rest =>
          match pStrBody rest with
          | none => none
          | some (kcs, rest2) =>
              match skipWs rest2 with
              | ':' :: rest3 =>
                  match pVal fuel rest3 with
                  | none => none
                  | some (v, rest4) =>
                      let acc2 := objInsert acc (String.mk kcs) v
                      match skipWs rest4 with
                      | ',' :: rest5 => pMembers fuel rest5 acc2 false
                      | '\x7d' :: rest5 => some (Json.obj acc2, rest5)
                      | _ => none
              | _ => none
      | _ => none

/-- Parse JSON array elements up to the closing bracket. -/
def pElems : Nat → List Char → List Json → Bool → Option (Json × List Char)
  | 0, _, _, _ => none
  | fuel + 1, l, acc, allowClose =>
      match skipWs l with
      | ']' :: rest => if allowClose then some (Json.arr acc, rest) else none
      | l2 =>
          match pVal fuel l2 with
          | none => none
          | some (v, rest) =>
              match skipWs rest with
              | ',' :: rest2 => pElems fuel rest2 (acc ++ [v]) false
              | ']' :: rest2 => some (Json.arr (acc ++ [v]), rest2)
              | _ => none

end

/-- Model of `json.loads(s)`: parse one value and require only whitespace to
remain.  The fuel `2 * length + 2` strictly dominates the recursion
depth, which consumes at least one character every two fuel steps. -/
def json_loads (s : String) : Option Json :=
  match pVal (2 * s.data.length + 2) s.data with
  | some (v, rest) => if skipWs rest = [] then some v else none
  | none => none

/-! ### Python dynamic operations on decoded JSON values

These model exactly the operations the `try` block of lines 303-316
performs on the loaded value, with `none` for a raised exception
(`TypeError` / `AttributeError`). -/

/-- Python truthiness of a decoded JSON value. -/
def truthyJson : Json → Bool
  | .null => false
  | .bool b => b
  | .num _ ip frac _ => !(ip = 0 && frac.all (· = 0))
  | .str s => !(s == "")
  | .arr xs => !xs.isEmpty
  | .obj kvs => !kvs.isEmpty

/-- Is `needle` a contiguous segment of `hay` (Python `in` on `str`)? -/
def charsContains : List Char → List Char → Bool
  | needle, [] => charsHasPre needle []
  | needle, c :: t => charsHasPre needle (c :: t) || charsContains needle t

/-- Python `k in v`: key membership for a dict, element equality for a
list (a `str` equals only an equal `str`), substring test for a `str`;
a `TypeError` for anything else. -/
def pyContains (v : Json) (k : String) : Option Bool :=
  match v with
  | .obj kvs => some (kvs.any (fun p => p.1 == k))
  | .arr xs => some (xs.any (fun x => match x with
      | .str s => s == k
      | _ => false))
  | .str s => some (charsContains k.data s.data)
  | _ => none

/-- Python `v[k] = x`: only a dict supports item assignment here. -/
def pySetItem (v : Json) (k : String) (x : Json) : Option Json :=
  match v with
  | .obj kvs => some (Json.obj (objInsert kvs k x))
  | _ => none

/-- Python `v.get(k, dflt)`: only a dict has `.get`. -/
def pyGetD (v : Json) (k : String) (dflt : Json) : Option Json :=
  match v with
  | .obj kvs => some (((kvs.find? (fun p => p.1 == k)).map Prod.snd).getD dflt)
  | _ => none

/-- Python iteration `for x in v`: list elements, the characters of a
string (as one-character strings), or the keys of a dict; a `TypeError`
otherwise. -/
def pyIter (v : Json) : Option (List Json) :=
  match v with
  | .arr xs => some xs
  | .str s => some (s.data.map (fun c => Json.str (String.mk [c])))
  | .obj kvs => some (kvs.map (fun p => Json.str p.1))
  | _ => none

/-- Model of `sanitize_text` applied to an arbitrary decoded value (line 315):
falsy values give `""` via the `if not s` early return, truthy strings
are sanitized, and a truthy non-string raises inside `html.unescape`. -/
def pySanitizeVal (v : Json) : Option String :=
  if truthyJson v then
    match v with
    | .str s => some (sanitize_text s)
    | _ => none
  else some ("")

theorem pySanitizeVal_str (s : String) :
    pySanitizeVal (Json.str s) = some (sanitize_text s) := by
  by_cases h : s = ""
  · subst h; rfl
  · simp [pySanitizeVal, truthyJson, h]

/-- Model of `if k not in data: data[k] = []` (lines 308-309). -/
def ensureKey (v : Json) (k : String) : Option Json :=
  match pyContains v k with
  | none => none
  | some true => some v
  | some false => pySetItem v k (Json.arr [])

/-- Model of `if k in it: it[k] = sanitize_text(it.get(k))` for one key
(lines 313-315). -/
def sanitizeKeyStep (it : Json) (k : String) : Option Json :=
  match pyContains it k with
  | none => none
  | some false => some it
  | some true =>
      match pyGetD it k Json.null with
      | none => none
      | some v =>
          match pySanitizeVal v with
          | none => none
          | some s => pySetItem it k (Json.str s)

/-- The inner loop of lines 313-315 over the five item fields. -/
def processItem (it : Json) : Option Json :=
  List.foldlM sanitizeKeyStep it ["title", "url", "date_iso", "issuer", "summary"]

/-- One iteration of `for sec in data.get("sections", [])` (lines
311-315): `sec.get("items", []) or []`, iterate, sanitize each item's
fields; the in-place mutation of the item dicts is modelled by writing
the processed list back when (and only when) the stored `items` value is
a list. -/
def processSec (sec : Json) : Option Json :=
  match pyContains sec ("items"), pyGetD sec ("items") (Json.arr []) with
  | some hasKey, some itemsRaw =>
      let items := if truthyJson itemsRaw then itemsRaw else Json.arr []
      match pyIter items with
      | none => none
      | some elems =>
          match elems.mapM processItem with
          | none => none
          | some newElems =>
              match itemsRaw, hasKey with
              | .arr _, true => pySetItem sec ("items") (Json.arr newElems)
              | _, _ => some sec
  | _, _ => none

/-- The whole `try` body of lines 307-316 after `json.loads` succeeded:
default the `briefing` and `sections` keys, then sanitize every string
field of every section item; `none` models a raised exception. -/
def postprocessDigest (data : Json) : Option Json :=
  match ensureKey data ("briefing") with
  | none => none
  | some d1 =>
      match ensureKey d1 ("sections") with
      | none => none
      | some d2 =>
          match pyGetD d2 ("sections") (Json.arr []) with
          | none => none
          | some secsVal =>
              match pyIter secsVal with
              | none => none
              | some secs =>
                  match secs.mapM processSec with
                  | none => none
                  | some newSecs =>
                      match secsVal with
                      | .arr _ => pySetItem d2 ("sections") (Json.arr newSecs)
                      | _ => some d2

/-- The `{"briefing": [], "sections": []}` fallback digest of lines
301 and 319. -/
def emptyDigestJson : Json :=
  Json.obj [("briefing", Json.arr []), ("sections", Json.arr [])]

/-- Model of `raw.find("{")` / `raw.rfind("}")` and the slice of lines 304-306:
when both braces exist and the last `}` lies after the first `{`, keep
only that substring, otherwise leave the raw text unchanged. -/
def extractBraces (raw : String) : String :=
  match firstIdxP (· = '\x7b') raw.data,
        (firstIdxP (· = '\x7d') raw.data.reverse).map
          (fun i => raw.data.length - 1 - i) with
  | some i, some j =>
      if i < j then String.mk ((raw.data.drop i).take (j + 1 - i)) else raw
  | _, _ => raw

/-- Lines 303-319: brace isolation, `json.loads`, key defaulting and
string sanitation; every failure path degrades to the empty digest. -/
def parseDigestResponse (raw : String) : Json :=
  match json_loads (extractBraces raw) with
  | none => emptyDigestJson
  | some data =>
      match postprocessDigest data with
      | some d => d
      | none => emptyDigestJson

/-- Model of `call_openai` at the transport boundary (lines 279-319): the
response outcome — a transport error or the stripped `output_text` — is
passed in explicitly.  A transport error is caught and yields the empty
digest (lines 299-301). -/
def callOpenAIModel (outcome : Except String String) : Json :=
  match outcome with
  | .error _ => emptyDigestJson
  | .ok t => parseDigestResponse (pyStrip t)

/-- The spec's scenario response: a JSON object wrapped in prose. -/
def c1Example : String :=
  "Hier ist das Ergebnis: \x7b\"briefing\":[],\"sections\":[]\x7d Danke."

/-- C1: the digest parser keeps exactly the substring from the first
`{` to the last `}` (the scenario input parses to the object
`{briefing: [], sections: []}` despite the surrounding prose), and
whenever that substring does not parse as JSON the parser returns the
empty digest instead of raising (the function is total). -/
theorem c1_brace_isolation_and_fallback :
    extractBraces c1Example = "\x7b\"briefing\":[],\"sections\":[]\x7d" ∧
    parseDigestResponse c1Example = emptyDigestJson ∧
    (∀ raw : String, json_loads (extractBraces raw) = none →
      parseDigestResponse raw = emptyDigestJson) := by
  refine ⟨by decide, by rfl, ?_⟩
  intro raw h
  simp only [parseDigestResponse, h]

/-- Witness for C1's fallback hypothesis at a brace-free response. -/
theorem c1_brace_isolation_and_fallback_witness :
    parseDigestResponse ("keine strukturierte Antwort") = emptyDigestJson :=
  c1_brace_isolation_and_fallback.2.2 ("keine strukturierte Antwort") (by rfl)

/-- C8 counterexample: a transport failure of the generation call is
swallowed after a single attempt and the requester RETURNS the
substitute value `{"briefing": [], "sections": []}` — it neither retries
nor propagates the failure, contradicting the claimed
retry-then-fatal policy. -/
theorem c8_no_retry_counterexample :
    callOpenAIModel (Except.error ("APIConnectionError")) = emptyDigestJson := rfl

/-- C8 (amended): `call_openai` makes exactly one attempt; every
transport failure is caught, logged and converted to the empty digest
`{"briefing": [], "sections": []}`, so the run continues with an empty
digest instead of failing. -/
theorem c8_transport_failure_yields_empty_digest (err : String) :
    callOpenAIModel (Except.error err) =
      Json.obj [("briefing", Json.arr []), ("sections", Json.arr [])] := rfl

/-! ### `render_html` item rendering (updater.py lines 346-389)

The per-field pipelines of the section-item loop (lines 371-388) and of
the briefing loop's dict branch (lines 350-353), fed with the item dict
as it leaves `call_openai`. -/

/-- A decoded value coerced by `(... or "").strip()`-style code: only a
`str` survives, anything else raises at `.strip()`. -/
def pyStrOf (v : Json) : Option String :=
  match v with
  | .str s => some s
  | _ => none

/-- Line 372: `issuer = html.escape(sanitize_text(it.get("issuer")))`. -/
def render_issuer (it : Json) : Option String :=
  match pyGetD it ("issuer") Json.null with
  | none => none
  | some v => (pySanitizeVal v).map htmlEscape

/-- Line 373: `t = html.escape(sanitize_text(it.get("title") or "(ohne Titel)"))`. -/
def render_title (it : Json) : Option String :=
  match pyGetD it ("title") Json.null with
  | none => none
  | some v =>
      (pySanitizeVal (if truthyJson v then v else Json.str ("(ohne Titel)"))).map htmlEscape

/-- Line 374: `u = html.escape((it.get("url") or "").strip())`. -/
def render_url (it : Json) : Option String :=
  match pyGetD it ("url") Json.null with
  | none => none
  | some v =>
      (pyStrOf (if truthyJson v then v else Json.str (""))).map
        (fun s => htmlEscape (pyStrip s))

/-- Lines 375-376: `date_txt = parse_iso_or_ch((it.get("date_iso") or "").strip())`
— note the absence of `html.escape` here. -/
def render_date_txt (it : Json) : Option String :=
  match pyGetD it ("date_iso") Json.null with
  | none => none
  | some v =>
      (pyStrOf (if truthyJson v then v else Json.str (""))).map
        (fun s => parse_iso_or_ch (pyStrip s))

/-- Line 377: `summary = html.escape(sanitize_text(it.get("summary")))`. -/
def render_summary (it : Json) : Option String :=
  match pyGetD it ("summary") Json.null with
  | none => none
  | some v => (pySanitizeVal v).map htmlEscape

/-- Lines 378-388: assembly of one `<li>` line from the five rendered
fields. -/
def renderItemLine (it : Json) : Option String :=
  match render_issuer it, render_title it, render_url it,
        render_date_txt it, render_summary it with
  | some issuer, some t, some u, some date_txt, some summary =>
      let head :=
        (if issuer ≠ "" then ("<span class=\"issuer\">") ++ issuer ++ "</span> — " else ("")) ++
        (if date_txt ≠ "" then ("<strong>") ++ date_txt ++ "</strong> – " else ("")) ++ t
      some ("<li>" ++ head ++
        (if u ≠ "" then (" (<a href=\"") ++ u ++ "\" target=\"_blank\" rel=\"noopener\">Quelle</a>)"
         else ("")) ++
        (if summary ≠ "" then ("<br>") ++ summary else ("")) ++ "</li>")
  | _, _, _, _, _ => none

/-- Line 351 (briefing loop, dict branch):
`t = html.escape((b.get("title") or "").strip())` — no `sanitize_text`
on briefing fields. -/
def briefing_title_esc (b : Json) : Option String :=
  match pyGetD b ("title") Json.null with
  | none => none
  | some v =>
      (pyStrOf (if truthyJson v then v else Json.str (""))).map
        (fun s => htmlEscape (pyStrip s))

/-- Line 352: `u = html.escape((b.get("url") or "").strip())`. -/
def briefing_url_esc (b : Json) : Option String :=
  match pyGetD b ("url") Json.null with
  | none => none
  | some v =>
      (pyStrOf (if truthyJson v then v else Json.str (""))).map
        (fun s => htmlEscape (pyStrip s))

/-- Does the string avoid raw `<` and `>` characters? -/
def noMarkupChars (s : String) : Bool :=
  s.data.all (fun c => !(c == '<') && !(c == '>'))

theorem noMarkupChars_htmlEscape (w : String) :
    noMarkupChars (htmlEscape w) = true := by
  rw [noMarkupChars, List.all_eq_true]
  intro c hc
  obtain ⟨h1, h2, _⟩ := htmlEscape_no_markup w c hc
  simp [h1, h2]

/-- C2 counterexample: the model-supplied `date_iso` value `1<2`
survives sanitation unchanged (the lone `<` is not a tag) and is
interpolated into the `<strong>` date slot VERBATIM — the value reaching
the fragment is `1<2`, not its HTML-escape `1&lt;2`; and a briefing
title keeps its embedded tags (escaped but not stripped), where the
claimed decode-strip-normalize pipeline would have yielded `a x`. -/
theorem c2_unescaped_date_counterexample :
    (processItem (Json.obj [("date_iso", Json.str ("1<2"))])).bind render_date_txt =
      some ("1<2") ∧
    htmlEscape (sanitize_text ("1<2")) = "1&lt;2" ∧
    ("1<2" : String) ≠ "1&lt;2" ∧
    briefing_title_esc (Json.obj [("title", Json.str ("a <b>x</b>"))]) =
      some ("a &lt;b&gt;x&lt;/b&gt;") ∧
    htmlEscape (sanitize_text ("a <b>x</b>")) = "a x" := by
  refine ⟨by decide, by decide, by decide, by decide, by decide⟩

theorem processItem_issuer (v : String) :
    processItem (Json.obj [("issuer", Json.str v)]) =
      some (Json.obj [("issuer", Json.str (sanitize_text v))]) := by
  simp [processItem, List.foldlM, sanitizeKeyStep, pyContains, pyGetD, pySetItem,
    objInsert, pySanitizeVal_str]

theorem processItem_title (v : String) :
    processItem (Json.obj [("title", Json.str v)]) =
      some (Json.obj [("title", Json.str (sanitize_text v))]) := by
  simp [processItem, List.foldlM, sanitizeKeyStep, pyContains, pyGetD, pySetItem,
    objInsert, pySanitizeVal_str]

theorem processItem_url (v : String) :
    processItem (Json.obj [("url", Json.str v)]) =
      some (Json.obj [("url", Json.str (sanitize_text v))]) := by
  simp [processItem, List.foldlM, sanitizeKeyStep, pyContains, pyGetD, pySetItem,
    objInsert, pySanitizeVal_str]

theorem processItem_summary (v : String) :
    processItem (Json.obj [("summary", Json.str v)]) =
      some (Json.obj [("summary", Json.str (sanitize_text v))]) := by
  simp [processItem, List.foldlM, sanitizeKeyStep, pyContains, pyGetD, pySetItem,
    objInsert, pySanitizeVal_str]

theorem processItem_date_iso (v : String) :
    processItem (Json.obj [("date_iso", Json.str v)]) =
      some (Json.obj [("date_iso", Json.str (sanitize_text v))]) := by
  simp [processItem, List.foldlM, sanitizeKeyStep, pyContains, pyGetD, pySetItem,
    objInsert, pySanitizeVal_str]

theorem render_issuer_str (w : String) :
    render_issuer (Json.obj [("issuer", Json.str w)]) =
      some (htmlEscape (sanitize_text w)) := by
  simp [render_issuer, pyGetD, pySanitizeVal_str]

theorem render_summary_str (w : String) :
    render_summary (Json.obj [("summary", Json.str w)]) =
      some (htmlEscape (sanitize_text w)) := by
  simp [render_summary, pyGetD, pySanitizeVal_str]

theorem render_title_str (w : String) :
    render_title (Json.obj [("title", Json.str w)]) =
      some (htmlEscape (sanitize_text (if w = "" then ("(ohne Titel)") else w))) := by
  by_cases h : w = ""
  · subst h
    simp [render_title, pyGetD, truthyJson, pySanitizeVal_str]
  · simp [render_title, pyGetD, truthyJson, h, pySanitizeVal_str]

theorem render_url_str (w : String) :
    render_url (Json.obj [("url", Json.str w)]) =
      some (htmlEscape (pyStrip w)) := by
  by_cases h : w = ""
  · subst h
    simp [render_url, pyGetD, truthyJson, pyStrOf]
  · simp [render_url, pyGetD, truthyJson, h, pyStrOf]

theorem render_date_txt_str (w : String) :
    render_date_txt (Json.obj [("date_iso", Json.str w)]) =
      some (parse_iso_or_ch (pyStrip w)) := by
  by_cases h : w = ""
  · subst h
    simp [render_date_txt, pyGetD, truthyJson, pyStrOf]
  · simp [render_date_txt, pyGetD, truthyJson, h, pyStrOf]

theorem briefing_title_esc_str (w : String) :
    briefing_title_esc (Json.obj [("title", Json.str w)]) =
      some (htmlEscape (pyStrip w)) := by
  by_cases h : w = ""
  · subst h
    simp [briefing_title_esc, pyGetD, truthyJson, pyStrOf]
  · simp [briefing_title_esc, pyGetD, truthyJson, h, pyStrOf]

theorem briefing_url_esc_str (w : String) :
    briefing_url_esc (Json.obj [("url", Json.str w)]) =
      some (htmlEscape (pyStrip w)) := by
  by_cases h : w = ""
  · subst h
    simp [briefing_url_esc, pyGetD, truthyJson, pyStrOf]
  · simp [briefing_url_esc, pyGetD, truthyJson, h, pyStrOf]

/-- C2 (amended): for every model-supplied string field value, the
section-item values reaching the fragment are: issuer/summary —
entity-decoded, tag-stripped, whitespace-normalized at ingestion,
sanitized again at render time and HTML-escaped; title — likewise, with
the `(ohne Titel)` fallback when the sanitized value is empty; url —
sanitized at ingestion, then stripped and HTML-escaped; `date_iso` —
sanitized at ingestion but interpolated through `parse_iso_or_ch`
WITHOUT re-escaping; briefing title/url — only stripped and HTML-escaped
(never decoded, tag-stripped or normalized).  Every escaped value is
free of raw angle brackets. -/
theorem c2_field_sanitation_pipelines (v : String) :
    (processItem (Json.obj [("issuer", Json.str v)])).bind render_issuer =
      some (htmlEscape (sanitize_text (sanitize_text v))) ∧
    (processItem (Json.obj [("title", Json.str v)])).bind render_title =
      some (htmlEscape (sanitize_text
        (if sanitize_text v = "" then ("(ohne Titel)") else sanitize_text v))) ∧
    (processItem (Json.obj [("url", Json.str v)])).bind render_url =
      some (htmlEscape (pyStrip (sanitize_text v))) ∧
    (processItem (Json.obj [("summary", Json.str v)])).bind render_summary =
      some (htmlEscape (sanitize_text (sanitize_text v))) ∧
    (processItem (Json.obj [("date_iso", Json.str v)])).bind render_date_txt =
      some (parse_iso_or_ch (pyStrip (sanitize_text v))) ∧
    briefing_title_esc (Json.obj [("title", Json.str v)]) =
      some (htmlEscape (pyStrip v)) ∧
    briefing_url_esc (Json.obj [("url", Json.str v)]) =
      some (htmlEscape (pyStrip v)) ∧
    (∀ w : String, noMarkupChars (htmlEscape w) = true) := by
  refine ⟨?_, ?_, ?_, ?_, ?_, briefing_title_esc_str v, briefing_url_esc_str v,
    noMarkupChars_htmlEscape⟩
  · rw [processItem_issuer]
    exact render_issuer_str (sanitize_text v)
  · rw [processItem_title]
    exact render_title_str (sanitize_text v)
  · rw [processItem_url]
    exact render_url_str (sanitize_text v)
  · rw [processItem_summary]
    exact render_summary_str (sanitize_text v)
  · rw [processItem_date_iso]
    exact render_date_txt_str (sanitize_text v)

/-! ### `post_to_wp` (updater.py lines 420-439)

The HTTP transport is a boundary: the observed response (status code and
body text) is passed in, and the raised `RuntimeError` is modelled as
`Except.error` carrying the exception message. -/

/-- Lines 437-438: `if r.status_code not in (200, 201): raise
RuntimeError(f"WP Update fehlgeschlagen: {r.status_code} {r.text}")`. -/
def post_to_wp_check (status : Nat) (body : String) : Except String Unit :=
  if status = 200 ∨ status = 201 then Except.ok ()
  else Except.error ("WP Update fehlgeschlagen: " ++ toString status ++ " " ++ body)

/-- C9 counterexample: status 204 is a 2xx success, yet the publish step
raises — the code accepts exactly 200 and 201, so "raises if and only if
the HTTP write returns a non-2xx status" is false at 204. -/
theorem c9_accepts_only_200_201_counterexample :
    post_to_wp_check 204 ("No Content") =
      Except.error ("WP Update fehlgeschlagen: 204 No Content") ∧
    200 ≤ 204 ∧ 204 < 300 := by
  refine ⟨by rfl, by omega, by omega⟩

theorem string_data_append (a b : String) : (a ++ b).data = a.data ++ b.data := rfl

/-- C9 (amended): the publish step raises if and only if the status code
is neither 200 nor 201 (other 2xx codes such as 204 also raise); the
raised error message contains both the status code and the response
body, and on 200/201 it returns normally. -/
theorem c9_publish_error_iff_not_200_201 (status : Nat) (body : String) :
    (status = 200 ∨ status = 201 → post_to_wp_check status body = Except.ok ()) ∧
    (status ≠ 200 → status ≠ 201 →
      post_to_wp_check status body =
        Except.error ("WP Update fehlgeschlagen: " ++ toString status ++ " " ++ body) ∧
      List.IsInfix (toString status).data
        ("WP Update fehlgeschlagen: " ++ toString status ++ " " ++ body).data ∧
      List.IsInfix body.data
        ("WP Update fehlgeschlagen: " ++ toString status ++ " " ++ body).data) := by
  constructor
  · intro h
    simp [post_to_wp_check, h]
  · intro h1 h2
    have hcond : ¬ (status = 200 ∨ status = 201) := by
      rintro (h | h)
      · exact h1 h
      · exact h2 h
    refine ⟨by simp [post_to_wp_check, hcond], ?_, ?_⟩
    · refine ⟨("WP Update fehlgeschlagen: ").data, (" " ++ body).data, ?_⟩
      simp [string_data_append, List.append_assoc]
    · refine ⟨("WP Update fehlgeschlagen: " ++ toString status ++ " ").data, [], ?_⟩
      simp [string_data_append, List.append_assoc]

/-- Witness for C9 (amended) at 200 (success) and 403 (failure). -/
theorem c9_publish_error_iff_not_200_201_witness :
    post_to_wp_check 200 ("ok") = Except.ok () ∧
    post_to_wp_check 403 ("Forbidden") =
      Except.error ("WP Update fehlgeschlagen: " ++ toString 403 ++ " " ++ "Forbidden") :=
  ⟨(c9_publish_error_iff_not_200_201 200 ("ok")).1 (Or.inl rfl),
   ((c9_publish_error_iff_not_200_201 403 ("Forbidden")).2 (by decide) (by decide)).1⟩

/-- C10: `parse_iso_or_ch` is total and passes unparseable input through
unchanged: an all-whitespace input yields `""`; when the first ten
characters of the stripped input parse under `%Y-%m-%d` the result is the
German day-month-name-year form; any other input is returned stripped and
verbatim, so a model-supplied `date_iso` is echoed into the rendered date
position.  No exception escapes (the function is total). -/
theorem c10_parse_iso_total_passthrough (s : String) :
    (pyStrip s = "" → parse_iso_or_ch s = "") ∧
    (∀ d, strptimeYmd (strTake (pyStrip s) 10) = some d →
      parse_iso_or_ch s = ch_date_str d) ∧
    (pyStrip s ≠ "" → strptimeYmd (strTake (pyStrip s) 10) = none →
      parse_iso_or_ch s = pyStrip s) := by
  refine ⟨?_, ?_, ?_⟩
  · intro h
    simp [parse_iso_or_ch, h]
  · intro d hd
    have hne : pyStrip s ≠ "" := by
      intro h
      rw [h] at hd
      simp [strTake, strptimeYmd] at hd
    simp [parse_iso_or_ch, hne, hd]
  · intro hne hnone
    simp [parse_iso_or_ch, hne, hnone]

/-- Witness for C10 at concrete inputs: whitespace-only input, a valid
ISO date with surrounding whitespace, and a non-date string. -/
theorem c10_parse_iso_total_passthrough_witness :
    parse_iso_or_ch ("  ") = "" ∧
    parse_iso_or_ch (" 2025-03-15 ") = "15. Maerz 2025" ∧
    parse_iso_or_ch ("next week") = pyStrip ("next week") :=
  ⟨(c10_parse_iso_total_passthrough ("  ")).1 (by decide),
   ((c10_parse_iso_total_passthrough (" 2025-03-15 ")).2.1 ⟨2025, 3, 15⟩
     (by decide)).trans (by decide),
   (c10_parse_iso_total_passthrough ("next week")).2.2 (by decide) (by decide)⟩
